import Mathlib

/-!
Verification of the rule-execution engine of `node-red-contrib-json-extract-rules`
(`src/json-extract-rules.js`).

The engine is embedded shallowly: JavaScript values are the inductive `JValue`
(numbers restricted to an integer-valued model, which suffices for every
property proved here), JavaScript builtin coercions (`String(v)`, `Number(v)`,
`trim`, case folding, truthiness) are explicit Lean functions, and external
collaborators (the JSONata evaluator, `process.env`, `JSON.parse`, the
flow/global context stores and the property getters and setters of the host
runtime) are parameters or simple total models, following the contracts the
host documents for them.  Fallible computations are `Except String`, the error
string standing for the JavaScript error message.
-/

/-- JavaScript numbers, restricted to an integer-valued model plus the
non-finite values.  The engine only compares numbers to zero, counts list
lengths and checks finiteness, so this restriction is conservative. -/
inductive JNum where
  | int : Int → JNum
  | nan : JNum
  | inf : JNum
  | ninf : JNum
deriving DecidableEq, Repr

/-- JSON-ish JavaScript values: `null` and `undefined` are distinct, objects
are insertion-ordered key/value lists (JavaScript object semantics for string
keys). -/
inductive JValue where
  | null : JValue
  | undefined : JValue
  | bool : Bool → JValue
  | num : JNum → JValue
  | str : String → JValue
  | arr : List JValue → JValue
  | obj : List (String × JValue) → JValue
deriving Repr

/-- JavaScript loose `v == null`: true exactly on `null` and `undefined`. -/
def isNullish : JValue → Bool
  | .null => true
  | .undefined => true
  | _ => false

/-- ASCII lower-casing of one character, the effect of JavaScript
`toLowerCase` on the ASCII range. -/
def charLower (c : Char) : Char :=
  if 'A' ≤ c ∧ c ≤ 'Z' then Char.ofNat (c.toNat + 32) else c

/-- ASCII upper-casing of one character, the effect of JavaScript
`toUpperCase` on the ASCII range. -/
def charUpper (c : Char) : Char :=
  if 'a' ≤ c ∧ c ≤ 'z' then Char.ofNat (c.toNat - 32) else c

/-- Model of JavaScript `String.prototype.toLowerCase` (ASCII case fold). -/
def strLower (s : String) : String := String.mk (s.data.map charLower)

/-- Model of JavaScript `String.prototype.toUpperCase` (ASCII case fold). -/
def strUpper (s : String) : String := String.mk (s.data.map charUpper)

/-- JavaScript whitespace, as far as the engine's inputs exercise it. -/
def isWS (c : Char) : Bool :=
  c = ' ' ∨ c = '\t' ∨ c = '\n' ∨ c = '\r' ∨ c = '\x0c' ∨ c = '\x0b'

/-- Model of JavaScript `String.prototype.trim`: strip leading and trailing
whitespace. -/
def strTrim (s : String) : String :=
  String.mk (((s.data.dropWhile isWS).reverse.dropWhile isWS).reverse)

/-- `String(n)` on the number model. -/
def numToString : JNum → String
  | .int i => toString i
  | .nan => "NaN"
  | .inf => "Infinity"
  | .ninf => "-Infinity"

mutual

/-- `Array.prototype.toString`: elements joined by commas. -/
def jsArrJoin : List JValue → String
  | [] => ""
  | [x] => jsElemString x
  | x :: y :: xs => jsElemString x ++ "," ++ jsArrJoin (y :: xs)
termination_by structural l => l

/-- Array elements stringify like `String(v)`, except `null`/`undefined`
become the empty string. -/
def jsElemString : JValue → String
  | .null => ""
  | .undefined => ""
  | .bool b => cond b "true" "false"
  | .num n => numToString n
  | .str s => s
  | .obj _ => "[object Object]"
  | .arr xs => jsArrJoin xs
termination_by structural v => v

end

/-- JavaScript `String(v)` coercion. -/
def jsToString : JValue → String
  | .null => "null"
  | .undefined => "undefined"
  | .bool b => cond b "true" "false"
  | .num n => numToString n
  | .str s => s
  | .obj _ => "[object Object]"
  | .arr xs => jsArrJoin xs

/-- Digit run to a natural number, or `none` when a non-digit occurs. -/
def digitsToNat : List Char → Nat → Option Nat
  | [], acc => some acc
  | c :: cs, acc =>
      if '0' ≤ c ∧ c ≤ '9' then digitsToNat cs (acc * 10 + (c.toNat - '0'.toNat))
      else none

/-- Integer literal parsing (optional sign followed by digits), the slice of
JavaScript numeric-string parsing the integer-valued model keeps. -/
def parseIntStr (s : String) : Option Int :=
  match s.data with
  | [] => none
  | '-' :: cs =>
      match cs with
      | [] => none
      | _ => (digitsToNat cs 0).map (fun n => -(n : Int))
  | '+' :: cs =>
      match cs with
      | [] => none
      | _ => (digitsToNat cs 0).map (fun n => (n : Int))
  | cs => (digitsToNat cs 0).map (fun n => (n : Int))

/-- JavaScript `Number(string)` on the integer-valued model: blank parses to
zero, the infinity literals to the infinities, integer literals to integers,
anything else to NaN. -/
def parseNum (s : String) : JNum :=
  let t := strTrim s
  if t = "" then .int 0
  else if t = "Infinity" ∨ t = "+Infinity" then .inf
  else if t = "-Infinity" then .ninf
  else match parseIntStr t with
    | some i => .int i
    | none => .nan

/-- JavaScript `Number(v)` coercion; arrays and objects go through their
string form, as `ToPrimitive` does for them. -/
def toNumber : JValue → JNum
  | .null => .int 0
  | .undefined => .nan
  | .bool b => .int (cond b 1 0)
  | .num n => n
  | .str s => parseNum s
  | .arr xs => parseNum (jsToString (.arr xs))
  | .obj fs => parseNum (jsToString (.obj fs))

/-- JavaScript truthiness. -/
def toBool : JValue → Bool
  | .null => false
  | .undefined => false
  | .bool b => b
  | .num (.int i) => decide (i ≠ 0)
  | .num .nan => false
  | .num .inf => true
  | .num .ninf => true
  | .str s => decide (s ≠ "")
  | .arr _ => true
  | .obj _ => true

/-- `mkNASet(values)` from the source: builds the predicate deciding whether a
value counts as NA.  The configured tokens are lower-cased; a value is NA when
it is nullish, trims to the empty string, or its lower-cased trimmed string
form is among the lower-cased tokens. -/
def mkNASet (values : List String) : JValue → Bool := fun v =>
  if isNullish v then true
  else
    let s := strTrim (jsToString v)
    if s = "" then true
    else decide (strLower s ∈ values.map strLower)

/-- `normalizeNA(v, isNA)` from the source. -/
def normalizeNA (v : JValue) (isNA : JValue → Bool) : JValue :=
  if isNA v then .null else v

/-- `applyTransform(name, v)` from the source: the fixed library of value
coercions. -/
def applyTransform (name : String) (v : JValue) : JValue :=
  if name = "trim" then (if isNullish v then v else .str (strTrim (jsToString v)))
  else if name = "lower" then (if isNullish v then v else .str (strLower (jsToString v)))
  else if name = "upper" then (if isNullish v then v else .str (strUpper (jsToString v)))
  else if name = "number" then
    (if isNullish v ∨ strTrim (jsToString v) = "" then .null
     else match toNumber v with
       | .int i => .num (.int i)
       | _ => .null)
  else if name = "bool01" then .num (.int (cond (toBool v) 1 0))
  else if name = "string" then (if isNullish v then .str "" else .str (jsToString v))
  else v

example : applyTransform "number" (.str " 42 ") = .num (.int 42) := rfl
example : applyTransform "bool01" (.num (.int 0)) = .num (.int 0) := rfl
example : applyTransform "lower" (.str "N/A") = .str "n/a" := rfl
example : mkNASet ["", "NA", "N/A"] (.str " na ") = true := rfl
example : mkNASet ["", "NA", "N/A"] (.str "alpha") = false := rfl
example : jsToString (.arr [.str "a", .null, .num (.int 3)]) = "a,,3" := rfl

/-- First-match lookup in an insertion-ordered object. -/
def objGet : List (String × JValue) → String → Option JValue
  | [], _ => none
  | (k', v') :: rest, k => if k' = k then some v' else objGet rest k

/-- JavaScript object assignment `o[k] = v`: overwrite in place when the key
exists (keeping its original position), append otherwise. -/
def objSet : List (String × JValue) → String → JValue → List (String × JValue)
  | [], k, v => [(k, v)]
  | (k', v') :: rest, k, v =>
      if k' = k then (k, v) :: rest else (k', v') :: objSet rest k v

/-- Flow/global context stores of the host runtime, modelled as flat
key/value maps whose `get` yields `undefined` for an absent key. -/
abbrev Store := List (String × JValue)

/-- `context.get(key)`: the stored value, or `undefined` when absent. -/
def storeGet (st : Store) (k : String) : JValue :=
  match objGet st k with
  | some v => v
  | none => .undefined

/-- `context.set(key, value)`. -/
def storeSet (st : Store) (k : String) (v : JValue) : Store := objSet st k v

/-- Split a dotted property path into segments. -/
def splitDot (cs : List Char) (cur : List Char) : List String :=
  match cs with
  | [] => [String.mk cur.reverse]
  | c :: rest =>
      if c = '.' then String.mk cur.reverse :: splitDot rest []
      else splitDot rest (c :: cur)

/-- Dotted-path traversal of a value: objects by key, arrays by numeric
index, anything else fails to `undefined`. -/
def getPathSegs : List String → JValue → JValue
  | [], v => v
  | k :: ks, .obj fs =>
      match objGet fs k with
      | some v => getPathSegs ks v
      | none => .undefined
  | k :: ks, .arr xs =>
      match parseIntStr k with
      | some i =>
          match xs.get? i.toNat with
          | some v => if 0 ≤ i then getPathSegs ks v else .undefined
          | none => .undefined
      | none => .undefined
  | _ :: _, _ => .undefined

/-- Model of the host runtime's guarded property getter (`getObjectProperty`
in the source wraps the host lookup in try/catch): dotted-path lookup where
every resolution failure yields `undefined`, never an exception. -/
def getObjectProperty (o : JValue) (p : String) : JValue :=
  if p = "" then .undefined
  else getPathSegs (splitDot p.data []) o

/-- Recursive write used by the host's `setMessageProperty` with
`createMissing`: intermediate non-objects are replaced by fresh objects. -/
def setPathSegs : List String → JValue → JValue → JValue
  | [], _, v => v
  | k :: ks, .obj fs, v =>
      let child := match objGet fs k with
        | some c => c
        | none => .undefined
      .obj (objSet fs k (setPathSegs ks child v))
  | k :: ks, _, v => .obj [(k, setPathSegs ks .undefined v)]

/-- Model of the host runtime's `setMessageProperty(msg, path, value, true)`. -/
def setObjectProperty (o : JValue) (p : String) (v : JValue) : JValue :=
  if p = "" then o else setPathSegs (splitDot p.data []) o v

/-- Own-enumerable properties contributed by object spread `{...v}`:
objects give their fields, arrays and strings their indexed elements,
primitives nothing. -/
def spreadFields : JValue → List (String × JValue)
  | .obj fs => fs
  | .arr xs => (List.range xs.length).zip xs |>.map (fun p => (toString p.1, p.2))
  | .str s => (List.range s.data.length).zip s.data |>.map
      (fun p => (toString p.1, JValue.str (String.mk [p.2])))
  | _ => []

/-- The data root handed to a JSONata evaluation with a row context:
`{ ...rowCtx, msg }` from the source — the row's own properties plus a `msg`
back-reference (overwriting a row property called `msg`). -/
def mkDataRoot (row msg : JValue) : JValue :=
  .obj (objSet (spreadFields row) "msg" msg)

/-- External collaborators of the engine: the JSONata compile-and-evaluate
capability (an error is the compile or evaluation failure message), the
process environment, and `JSON.parse`. -/
structure ExtEnv where
  jexp : String → JValue → Except String JValue
  envVar : String → String
  jsonParse : String → Option JValue

/-- `jsonataEval(node, expr, data)` from the source: a null or empty
expression resolves to `undefined` without consulting the evaluator; anything
else is compiled and evaluated, either failure rejecting with the underlying
message. -/
def jsonataEval (e : ExtEnv) (expr : String) (data : JValue) : Except String JValue :=
  if expr = "" then .ok .undefined
  else e.jexp expr data

/-- JavaScript `a || b` on configuration strings (`b` when `a` is blank). -/
def orD (s d : String) : String := if s = "" then d else s

/-- `evalTyped(node, msg, type, src, rowCtx)` from the source: resolve a typed
source against the document and optional row context.  `rowCtx` is `undefined`
when no row context was passed. -/
def evalTyped (e : ExtEnv) (fl gl : Store) (msg : JValue) (ty src : String)
    (rowCtx : JValue) : Except String JValue :=
  if ty = "msg" then .ok (getObjectProperty msg src)
  else if ty = "flow" then .ok (storeGet fl src)
  else if ty = "global" then .ok (storeGet gl src)
  else if ty = "env" then .ok (.str (e.envVar src))
  else if ty = "path" then
    .ok (getObjectProperty (if isNullish rowCtx then msg else rowCtx) src)
  else if ty = "jsonata" then
    jsonataEval e src (if isNullish rowCtx then msg else mkDataRoot rowCtx msg)
  else if ty = "str" then .ok (.str src)
  else if ty = "num" then .ok (.num (parseNum src))
  else if ty = "bool" then .ok (.bool (decide (src ≠ "")))
  else if ty = "json" then
    .ok (match e.jsonParse src with
         | some v => v
         | none => .undefined)
  else .ok (.str src)

/-- Is an `Except` result a success? -/
def isOkE : Except String JValue → Bool
  | .ok _ => true
  | .error _ => false

example :
    getObjectProperty (.obj [("a", .obj [("b", .num (.int 7))])]) "a.b"
      = .num (.int 7) := rfl
example : getObjectProperty (.obj [("a", .null)]) "a.b" = .undefined := rfl

/-- One map field of a rule.  Configuration values are the strings the editor
stores; a blank string is the absent/falsy configuration value. -/
structure MapField where
  key : String
  srcType : String
  src : String
  whenType : String
  whenExpr : String
  transform : String

/-- The aggregate specification of a rule (`rule.aggregate` with all fields
blank when absent, matching `rule.aggregate || { mode: "array" }` followed by
`agg.mode || "array"`). -/
structure AggSpec where
  mode : String
  keyExprType : String
  keyExpr : String
  valueExprType : String
  valueExpr : String

/-- The output specification of a rule; blank fields take the documented
defaults in `runRule`. -/
structure OutSpec where
  type : String
  path : String

/-- One extraction rule. -/
structure Rule where
  name : String
  selectType : String
  select : String
  filterType : String
  filter : String
  map : List MapField
  aggregate : AggSpec
  output : OutSpec
  onEmpty : String
  onError : String

/-- The mutable state of one run: the message and the two context stores, the
accumulated warning and error lists (`msg.meta.warnings` / `msg.meta.errors`),
the per-rule outcome counters, and a trace of the `setTypedTarget` calls
performed. -/
structure RunState where
  msg : JValue
  flow : Store
  global : Store
  warnings : List String
  errors : List String
  ruleOK : Nat
  ruleWarn : Nat
  ruleErr : Nat
  outputs : List (String × String × JValue)

/-- The tag prefixed to every warning and error of a rule:
`[rule:name-or-index]`. -/
def ruleTag (i : Nat) (rule : Rule) : String :=
  "[rule:" ++ (if rule.name = "" then toString i else rule.name) ++ "]"

/-- The raw select result: JSONata against the root, dotted path against the
root, or the root itself for any other select type. -/
def selectRaw (e : ExtEnv) (root : JValue) (rule : Rule) : Except String JValue :=
  if rule.selectType = "jsonata" then jsonataEval e rule.select root
  else if rule.selectType = "path" then .ok (getObjectProperty root rule.select)
  else .ok root

/-- The SELECT stage: the raw result must be an array; a nullish result
coerces to the empty array; any other non-array is the hard per-rule error. -/
def selectStage (e : ExtEnv) (root : JValue) (rule : Rule) :
    Except String (List JValue) :=
  match selectRaw e root rule with
  | .error m => .error ("select evaluation failed: " ++ m)
  | .ok (.arr xs) => .ok xs
  | .ok v => if isNullish v then .ok [] else .error "select did not resolve to an array"

/-- The FILTER loop body: keep rows whose gate is truthy, drop rows whose gate
is falsy, and drop rows whose gate evaluation fails with a warning. -/
def filterRows (e : ExtEnv) (fl gl : Store) (msg : JValue) (tag fty f : String) :
    List JValue → List JValue × List String
  | [] => ([], [])
  | row :: rest =>
      let p := filterRows e fl gl msg tag fty f rest
      match evalTyped e fl gl msg fty f row with
      | .ok keep => (if toBool keep then row :: p.1 else p.1, p.2)
      | .error m => (p.1, (tag ++ " filter error on row: " ++ m) :: p.2)

/-- The FILTER stage: no configured filter passes all rows through. -/
def rowsStage (e : ExtEnv) (fl gl : Store) (msg : JValue) (tag : String)
    (rule : Rule) (scopeRows : List JValue) : List JValue × List String :=
  if rule.filter = "" then (scopeRows, [])
  else filterRows e fl gl msg tag (orD rule.filterType "jsonata") rule.filter scopeRows

/-- Truth value of the optional `when` gate of one map field: the field is
processed when no gate is configured or the gate evaluates truthily; a falsy
gate skips the field silently, a failing gate skips it with a warning. -/
def whenGate (e : ExtEnv) (fl gl : Store) (msg : JValue) (m : MapField)
    (row : JValue) : Except String Bool :=
  if m.whenExpr = "" then .ok true
  else
    match evalTyped e fl gl msg (orD m.whenType "jsonata") m.whenExpr row with
    | .ok w => .ok (toBool w)
    | .error err => .error err

/-- The MAP loop over the fields of one row: build the record in field order.
An optional `when` gate skips the field when falsy or failing (with a
warning); a source evaluation failure is a warning and the field is absent;
the record itself always survives. -/
def buildRec (e : ExtEnv) (fl gl : Store) (msg : JValue) (isNA : JValue → Bool)
    (tag : String) (row : JValue) :
    List MapField → List (String × JValue) → List (String × JValue) × List String
  | [], rec => (rec, [])
  | m :: ms, rec =>
      match whenGate e fl gl msg m row with
      | .error err =>
          let p := buildRec e fl gl msg isNA tag row ms rec
          (p.1, (tag ++ " when error: " ++ err) :: p.2)
      | .ok false => buildRec e fl gl msg isNA tag row ms rec
      | .ok true =>
          match evalTyped e fl gl msg (orD m.srcType "jsonata") m.src row with
          | .ok v0 =>
              let v := applyTransform (orD m.transform "none") (normalizeNA v0 isNA)
              buildRec e fl gl msg isNA tag row ms
                (if m.key = "" then rec else objSet rec m.key v)
          | .error err =>
              let p := buildRec e fl gl msg isNA tag row ms rec
              (p.1, (tag ++ " map error for key=" ++ m.key ++ ": " ++ err) :: p.2)

/-- The MAP stage: an empty map list passes the filtered rows through
unchanged; otherwise each row yields exactly one (possibly partial) record. -/
def mapRows (e : ExtEnv) (fl gl : Store) (msg : JValue) (isNA : JValue → Bool)
    (tag : String) (maps : List MapField) :
    List JValue → List JValue × List String
  | [] => ([], [])
  | row :: rest =>
      match maps with
      | [] => (row :: rest, [])
      | _ :: _ =>
          let q := buildRec e fl gl msg isNA tag row maps []
          let p := mapRows e fl gl msg isNA tag maps rest
          (.obj q.1 :: p.1, q.2 ++ p.2)

/-- `Object.keys(row)` followed by `row[keys[0]]`, as the `set` aggregator
does when no value expression is configured: the first own property value, or
`undefined` when there is none; `Object.keys` itself throws on a nullish
argument. -/
def firstKeyVal : JValue → Except String JValue
  | .null => .error "Cannot convert undefined or null to object"
  | .undefined => .error "Cannot convert undefined or null to object"
  | .obj [] => .ok .undefined
  | .obj ((_, v) :: _) => .ok v
  | .arr [] => .ok .undefined
  | .arr (x :: _) => .ok x
  | .str s =>
      match s.data with
      | [] => .ok .undefined
      | c :: _ => .ok (.str (String.mk [c]))
  | _ => .ok .undefined

/-- The per-record value consumed by the `set` aggregator. -/
def setValue (e : ExtEnv) (fl gl : Store) (msg : JValue) (agg : AggSpec)
    (row : JValue) : Except String JValue :=
  if agg.valueExpr = "" then firstKeyVal row
  else evalTyped e fl gl msg (orD agg.valueExprType "jsonata") agg.valueExpr row

/-- The `set` aggregator loop: NA-normalize each record value and insert its
string form unless it is nullish or blank after trimming; duplicates are not
re-inserted; a value evaluation failure is a warning and skips the record. -/
def setAggGo (e : ExtEnv) (fl gl : Store) (msg : JValue) (isNA : JValue → Bool)
    (tag : String) (agg : AggSpec) :
    List JValue → List String → List String × List String
  | [], acc => (acc, [])
  | r :: rest, acc =>
      match setValue e fl gl msg agg r with
      | .ok v0 =>
          let v := normalizeNA v0 isNA
          let acc' :=
            if isNullish v then acc
            else if strTrim (jsToString v) = "" then acc
            else if jsToString v ∈ acc then acc
            else acc ++ [jsToString v]
          setAggGo e fl gl msg isNA tag agg rest acc'
      | .error m =>
          let p := setAggGo e fl gl msg isNA tag agg rest acc
          (p.1, (tag ++ " set valueExpr error: " ++ m) :: p.2)

/-- The `objectByKey` aggregator loop: evaluate the key expression with the
record as row context and insert the record under the stringified key
(`String(k ?? "")`); a key evaluation failure is a warning and skips the
record. -/
def objByKeyGo (e : ExtEnv) (fl gl : Store) (msg : JValue) (tag : String)
    (agg : AggSpec) :
    List JValue → List (String × JValue) → List (String × JValue) × List String
  | [], acc => (acc, [])
  | r :: rest, acc =>
      match evalTyped e fl gl msg (orD agg.keyExprType "jsonata") agg.keyExpr r with
      | .ok k =>
          objByKeyGo e fl gl msg tag agg rest
            (objSet acc (if isNullish k then "" else jsToString k) r)
      | .error m =>
          let p := objByKeyGo e fl gl msg tag agg rest acc
          (p.1, (tag ++ " objectByKey keyExpr error: " ++ m) :: p.2)

/-- The AGGREGATE stage, dispatching on `agg.mode || "array"`; an unknown mode
falls back to the mapped sequence. -/
def aggStage (e : ExtEnv) (fl gl : Store) (msg : JValue) (isNA : JValue → Bool)
    (tag : String) (agg : AggSpec) (mapped : List JValue) :
    JValue × List String :=
  let mode := orD agg.mode "array"
  if mode = "array" then (.arr mapped, [])
  else if mode = "first" then
    ((match mapped with
      | [] => .null
      | x :: _ => x), [])
  else if mode = "count" then (.num (.int (mapped.length : Int)), [])
  else if mode = "objectByKey" then
    let p := objByKeyGo e fl gl msg tag agg mapped []
    (.obj p.1, p.2)
  else if mode = "set" then
    let p := setAggGo e fl gl msg isNA tag agg mapped []
    (.arr (p.1.map JValue.str), p.2)
  else (.arr mapped, [])

/-- `setTypedTarget(node, msg, type, path, value)` from the source, plus a
trace entry recording the performed write. -/
def writeOutput (s : RunState) (ty pathStr : String) (v : JValue) : RunState :=
  if pathStr = "" then s
  else if ty = "flow" then
    { s with flow := storeSet s.flow pathStr v, outputs := s.outputs ++ [(ty, pathStr, v)] }
  else if ty = "global" then
    { s with global := storeSet s.global pathStr v, outputs := s.outputs ++ [(ty, pathStr, v)] }
  else
    { s with msg := setObjectProperty s.msg pathStr v, outputs := s.outputs ++ [(ty, pathStr, v)] }

/-- Mode-specific emptiness of an aggregate result (`count`: strictly equal to
zero; `first`: nullish; arrays: zero length; plain objects: zero keys;
anything else: nullish). -/
def isEmptyResult (mode : String) (result : JValue) : Bool :=
  if mode = "count" then
    (match result with
     | .num (.int i) => decide (i = 0)
     | _ => false)
  else if mode = "first" then isNullish result
  else
    match result with
    | .arr xs => xs.isEmpty
    | .obj fs => fs.isEmpty
    | v => isNullish v

/-- The empty-handling step of one rule: on an empty result, `onEmpty=error`
records an error, `onEmpty=warn` or a blank `onEmpty` records a warning, and
any other setting (such as `ok`) counts the rule as a success; a non-empty
result always counts as a success. -/
def emptyHandling (tag onEmpty : String) (empty : Bool) (s : RunState) : RunState :=
  if empty then
    if onEmpty = "error" then
      { s with errors := s.errors ++ [tag ++ " produced empty result"],
               ruleErr := s.ruleErr + 1 }
    else if onEmpty = "warn" ∨ onEmpty = "" then
      { s with warnings := s.warnings ++ [tag ++ " produced empty result"],
               ruleWarn := s.ruleWarn + 1 }
    else { s with ruleOK := s.ruleOK + 1 }
  else { s with ruleOK := s.ruleOK + 1 }

/-- One iteration of the rule loop: select, filter, map, aggregate, output,
empty handling.  The returned flag is the `break` decision: a select-stage
failure under `onError=stop` stops the whole rule-set. -/
def runRule (e : ExtEnv) (isNA : JValue → Bool) (root : JValue) (i : Nat)
    (rule : Rule) (s : RunState) : RunState × Bool :=
  let tag := ruleTag i rule
  match selectStage e root rule with
  | .error em =>
      ({ s with errors := s.errors ++ [tag ++ " " ++ em],
                ruleErr := s.ruleErr + 1 },
       rule.onError == "stop")
  | .ok scopeRows =>
      let pr := rowsStage e s.flow s.global s.msg tag rule scopeRows
      let pm := mapRows e s.flow s.global s.msg isNA tag rule.map pr.1
      let pa := aggStage e s.flow s.global s.msg isNA tag rule.aggregate pm.1
      let s1 := { s with warnings := s.warnings ++ pr.2 ++ pm.2 ++ pa.2 }
      let outType := orD rule.output.type "msg"
      let outPath := orD rule.output.path ("extract." ++ toString i)
      let s2 := writeOutput s1 outType outPath pa.1
      let mode := orD rule.aggregate.mode "array"
      (emptyHandling tag rule.onEmpty (isEmptyResult mode pa.1) s2, false)

/-- The rule loop of the input handler: run rules in order, breaking when a
rule requests it. -/
def runRules (e : ExtEnv) (isNA : JValue → Bool) (root : JValue) :
    Nat → List Rule → RunState → RunState
  | _, [], s => s
  | i, r :: rest, s =>
      let p := runRule e isNA root i r s
      if p.2 then p.1 else runRules e isNA root (i + 1) rest p.1

/-- The run summary written to `msg.payload`. -/
structure Summary where
  ok : Bool
  rules : Nat
  okCount : Nat
  warn : Nat
  err : Nat
deriving DecidableEq, Repr

/-- `summary` from the source: `ok` is the absence of errors, and the warn and
err counts add the per-rule counters to the full lengths of the accumulated
lists. -/
def mkSummary (nRules : Nat) (s : RunState) : Summary :=
  { ok := s.errors.isEmpty
    rules := nRules
    okCount := s.ruleOK
    warn := s.ruleWarn + s.warnings.length
    err := s.ruleErr + s.errors.length }

/-- The document-root specification of a run. -/
structure SourceSpec where
  type : String
  path : String

/-- Source-root resolution of the input handler; only the `jsonata` branch can
fail, and a failure there escapes to the engine-level catch. -/
def resolveRoot (e : ExtEnv) (fl gl : Store) (source : Option SourceSpec)
    (msg : JValue) : Except String JValue :=
  match source with
  | none => .ok msg
  | some sp =>
      if sp.type = "msg" then
        .ok (if sp.path = "" then msg else getObjectProperty msg sp.path)
      else if sp.type = "flow" then .ok (storeGet fl sp.path)
      else if sp.type = "global" then .ok (storeGet gl sp.path)
      else if sp.type = "jsonata" then jsonataEval e sp.path msg
      else if sp.type = "path" then .ok (getObjectProperty msg sp.path)
      else .ok msg

/-- The NA policy of a run configuration. -/
structure NAPolicy where
  enabled : Bool
  values : Option (List String)

/-- The effective run configuration (node configuration or locked snapshot). -/
structure RunCfg where
  source : Option SourceSpec
  naPolicy : NAPolicy
  rules : List Rule

/-- The NA predicate of a run: the configured token set when the policy is
enabled (defaulting the token list), constantly false otherwise. -/
def mkIsNA (p : NAPolicy) : JValue → Bool :=
  if p.enabled then
    mkNASet (match p.values with
             | some vs => vs
             | none => ["", "NA", "N/A"])
  else fun _ => false

/-- The whole input handler on one message: resolve the root, run the rules
from the initial state (whose warning and error lists are the ones already on
the message metadata), and build the summary.  An engine-level failure (root
resolution throwing) aborts the run. -/
def runAll (e : ExtEnv) (cfg : RunCfg) (msg0 : JValue) (fl0 gl0 : Store)
    (initW initE : List String) : Except String (RunState × Summary) :=
  match resolveRoot e fl0 gl0 cfg.source msg0 with
  | .error m => .error m
  | .ok root =>
      let s0 : RunState :=
        { msg := msg0, flow := fl0, global := gl0, warnings := initW,
          errors := initE, ruleOK := 0, ruleWarn := 0, ruleErr := 0, outputs := [] }
      let s := runRules e (mkIsNA cfg.naPolicy) root 0 cfg.rules s0
      .ok (s, mkSummary cfg.rules.length s)

/-- C1: for the typed sources `msg`, `flow` and `global`, `evalTyped` returns
the looked-up value (resolution failure built into the lookup as `undefined`)
and never rejects; across all source types only the `jsonata` branch can
reject, and there the result is exactly the underlying evaluator outcome, so
a rejection carries the underlying compile/evaluation error message. -/
theorem C1_typed_source_evaluation (e : ExtEnv) (fl gl : Store) (msg : JValue)
    (src : String) (row : JValue) :
    evalTyped e fl gl msg "msg" src row = .ok (getObjectProperty msg src)
  ∧ evalTyped e fl gl msg "flow" src row = .ok (storeGet fl src)
  ∧ evalTyped e fl gl msg "global" src row = .ok (storeGet gl src)
  ∧ evalTyped e fl gl msg "jsonata" src row =
      (if src = "" then .ok .undefined
       else e.jexp src (if isNullish row then msg else mkDataRoot row msg))
  ∧ (∀ ty, isOkE (evalTyped e fl gl msg ty src row) = true ∨ ty = "jsonata") := by
  refine ⟨rfl, rfl, rfl, rfl, ?_⟩
  intro ty
  by_cases h1 : ty = "jsonata"
  · exact Or.inr h1
  · left
    unfold evalTyped
    split_ifs <;> simp_all [isOkE]

/-- C3: for an enabled NA policy, `isNA` holds exactly on nullish values,
values whose string form trims to blank, and values whose trimmed string form
case-insensitively equals a configured token; `normalize` sends NA values to
`null` and leaves all others unchanged; the disabled policy is the identity. -/
theorem C3_na_policy (values : List String) (v : JValue) :
    (mkNASet values v = true ↔
      (isNullish v = true ∨ strTrim (jsToString v) = "" ∨
        ∃ t ∈ values, strLower t = strLower (strTrim (jsToString v))))
  ∧ (mkNASet values v = true → normalizeNA v (mkNASet values) = .null)
  ∧ (mkNASet values v = false → normalizeNA v (mkNASet values) = v)
  ∧ normalizeNA v (fun _ => false) = v := by
  refine ⟨?_, ?_, ?_, rfl⟩
  · unfold mkNASet
    by_cases h1 : isNullish v = true
    · simp [h1]
    · simp only [h1, if_neg, Bool.not_eq_true] at *
      by_cases h2 : strTrim (jsToString v) = ""
      · simp [h1, h2]
      · simp [h1, h2, List.mem_map]
  · intro h; unfold normalizeNA; simp [h]
  · intro h; unfold normalizeNA; simp [h]

/-- Witness for C3 at the default token set: `" NA "` normalizes to `null`
and `"alpha"` is left unchanged. -/
theorem C3_na_policy_witness :
    normalizeNA (.str " NA ") (mkNASet ["", "NA", "N/A"]) = .null
  ∧ normalizeNA (.str "alpha") (mkNASet ["", "NA", "N/A"]) = .str "alpha" :=
  ⟨(C3_na_policy ["", "NA", "N/A"] (.str " NA ")).2.1 rfl,
   (C3_na_policy ["", "NA", "N/A"] (.str "alpha")).2.2.1 rfl⟩

/-- C8: every transform is a total function on the value model (hence never
raises), and each satisfies its postcondition: `trim`/`lower`/`upper`
string-cast and are the identity on nullish values; `number` sends nullish and
blank-trimming values to `null`, non-finite coercions to `null`, and otherwise
the coerced number; `bool01` sends truthy values to `1` and falsy values
(including zero) to `0`; `string` sends nullish values to the empty string and
otherwise string-casts; `none` and unknown names are the identity. -/
theorem C8_transforms_total (v : JValue) :
    (isNullish v = true →
       applyTransform "trim" v = v ∧ applyTransform "lower" v = v
         ∧ applyTransform "upper" v = v ∧ applyTransform "number" v = .null
         ∧ applyTransform "string" v = .str "")
  ∧ (isNullish v = false →
       applyTransform "trim" v = .str (strTrim (jsToString v))
         ∧ applyTransform "lower" v = .str (strLower (jsToString v))
         ∧ applyTransform "upper" v = .str (strUpper (jsToString v))
         ∧ applyTransform "string" v = .str (jsToString v))
  ∧ (strTrim (jsToString v) = "" → applyTransform "number" v = .null)
  ∧ (∀ i : Int, toNumber v = .int i → isNullish v = false →
       strTrim (jsToString v) ≠ "" → applyTransform "number" v = .num (.int i))
  ∧ ((toNumber v = .nan ∨ toNumber v = .inf ∨ toNumber v = .ninf) →
       applyTransform "number" v = .null)
  ∧ (toBool v = true → applyTransform "bool01" v = .num (.int 1))
  ∧ (toBool v = false → applyTransform "bool01" v = .num (.int 0))
  ∧ applyTransform "bool01" (.num (.int 0)) = .num (.int 0)
  ∧ applyTransform "none" v = v
  ∧ (∀ name, name ∉ ["trim", "lower", "upper", "number", "bool01", "string"] →
       applyTransform name v = v) := by
  refine ⟨?_, ?_, ?_, ?_, ?_, ?_, ?_, rfl, rfl, ?_⟩
  · intro h
    unfold applyTransform
    refine ⟨?_, ?_, ?_, ?_, ?_⟩ <;> simp [h]
  · intro h
    unfold applyTransform
    refine ⟨?_, ?_, ?_, ?_⟩ <;> simp [h]
  · intro h
    unfold applyTransform
    simp [h]
  · intro i hi h0 h1
    unfold applyTransform
    simp [h0, h1, hi]
  · intro h
    unfold applyTransform
    by_cases h0 : isNullish v = true
    · simp [h0]
    · by_cases h1 : strTrim (jsToString v) = ""
      · simp [h1]
      · simp only [Bool.not_eq_true] at h0
        rcases h with h | h | h <;> simp [h0, h1, h]
  · intro h; unfold applyTransform; simp [h]
  · intro h; unfold applyTransform; simp [h]
  · intro name hname
    unfold applyTransform
    simp only [List.mem_cons, List.mem_singleton, not_or] at hname
    obtain ⟨n1, n2, n3, n4, n5, n6, _⟩ := hname
    simp [n1, n2, n3, n4, n5, n6]

/-- Witness for C8: concrete evaluations exercising each guarded branch. -/
theorem C8_transforms_total_witness :
    applyTransform "trim" JValue.null = JValue.null
  ∧ applyTransform "upper" (.str " a ") = .str " A "
  ∧ applyTransform "number" (.str "  ") = .null
  ∧ applyTransform "number" (.str "7") = .num (.int 7)
  ∧ applyTransform "number" (.str "seven") = .null
  ∧ applyTransform "bool01" (.str "x") = .num (.int 1)
  ∧ applyTransform "bool01" (.num (.int 0)) = .num (.int 0)
  ∧ applyTransform "weird" (.str "x") = .str "x" := by
  refine ⟨((C8_transforms_total JValue.null).1 rfl).1, ?_, ?_, ?_, ?_, ?_, ?_, ?_⟩
  · exact ((C8_transforms_total (.str " a ")).2.1 rfl).2.2.1
  · exact (C8_transforms_total (.str "  ")).2.2.1 rfl
  · exact (C8_transforms_total (.str "7")).2.2.2.1 7 rfl rfl (by decide)
  · exact (C8_transforms_total (.str "seven")).2.2.2.2.1 (Or.inl rfl)
  · exact (C8_transforms_total (.str "x")).2.2.2.2.2.1 rfl
  · exact (C8_transforms_total (.num (.int 0))).2.2.2.2.2.2.1 rfl
  · exact (C8_transforms_total (.str "x")).2.2.2.2.2.2.2.2.2 "weird" (by decide)

/-- C4: the MAP stage always emits exactly one record per filtered row (the
mapped sequence has the length of the row sequence), and a failing field —
source evaluation error or `when`-gate error — is omitted from the record
with a warning while the record itself survives. -/
theorem C4_map_always_emits (e : ExtEnv) (fl gl : Store) (msg : JValue)
    (isNA : JValue → Bool) (tag : String) (maps : List MapField) :
    (∀ rows, (mapRows e fl gl msg isNA tag maps rows).1.length = rows.length)
  ∧ (∀ row m ms rec err, whenGate e fl gl msg m row = .ok true →
       evalTyped e fl gl msg (orD m.srcType "jsonata") m.src row = .error err →
       buildRec e fl gl msg isNA tag row (m :: ms) rec =
         ((buildRec e fl gl msg isNA tag row ms rec).1,
          (tag ++ " map error for key=" ++ m.key ++ ": " ++ err)
            :: (buildRec e fl gl msg isNA tag row ms rec).2))
  ∧ (∀ row m ms rec err, whenGate e fl gl msg m row = .error err →
       buildRec e fl gl msg isNA tag row (m :: ms) rec =
         ((buildRec e fl gl msg isNA tag row ms rec).1,
          (tag ++ " when error: " ++ err)
            :: (buildRec e fl gl msg isNA tag row ms rec).2)) := by
  refine ⟨?_, ?_, ?_⟩
  · intro rows
    induction rows with
    | nil => cases maps <;> simp [mapRows]
    | cons r rest ih =>
        cases maps with
        | nil => simp [mapRows]
        | cons m ms => simpa [mapRows] using ih
  · intro row m ms rec err hw hs
    simp [buildRec, hw, hs]
  · intro row m ms rec err hw
    simp [buildRec, hw]

/-- Witness for C4: a two-row input with a failing source expression still
yields two (empty) records, and the per-field failure equations hold at a
concrete failing evaluator. -/
theorem C4_map_always_emits_witness :
    (mapRows ⟨fun _ _ => .error "boom", fun _ => "", fun _ => none⟩ [] []
        (.obj []) (fun _ => false) "[rule:0]"
        [{ key := "k", srcType := "", src := "x", whenType := "", whenExpr := "",
           transform := "" }]
        [.num (.int 1), .num (.int 2)]).1.length = 2
  ∧ buildRec ⟨fun _ _ => .error "boom", fun _ => "", fun _ => none⟩ [] []
      (.obj []) (fun _ => false) "[rule:0]" (.num (.int 1))
      [{ key := "k", srcType := "", src := "x", whenType := "", whenExpr := "",
         transform := "" }] []
      = ([], ["[rule:0] map error for key=k: boom"]) := by
  constructor
  · exact (C4_map_always_emits ⟨fun _ _ => .error "boom", fun _ => "", fun _ => none⟩
      [] [] (.obj []) (fun _ => false) "[rule:0]"
      [{ key := "k", srcType := "", src := "x", whenType := "", whenExpr := "",
         transform := "" }]).1 [.num (.int 1), .num (.int 2)]
  · have h := (C4_map_always_emits ⟨fun _ _ => .error "boom", fun _ => "", fun _ => none⟩
      [] [] (.obj []) (fun _ => false) "[rule:0]"
      [{ key := "k", srcType := "", src := "x", whenType := "", whenExpr := "",
         transform := "" }]).2.1 (.num (.int 1))
      { key := "k", srcType := "", src := "x", whenType := "", whenExpr := "",
        transform := "" } [] [] "boom" rfl rfl
    simpa [buildRec] using h

/-- Invariant of the `set` aggregator loop: starting from a deduplicated
accumulator of non-blank entries, the final collection is deduplicated and
contains no blank-after-trim entry. -/
theorem setAggGo_invariant (e : ExtEnv) (fl gl : Store) (msg : JValue)
    (isNA : JValue → Bool) (tag : String) (agg : AggSpec) (rows : List JValue) :
    ∀ acc, acc.Nodup → (∀ s ∈ acc, strTrim s ≠ "") →
      (setAggGo e fl gl msg isNA tag agg rows acc).1.Nodup ∧
      ∀ s ∈ (setAggGo e fl gl msg isNA tag agg rows acc).1, strTrim s ≠ "" := by
  induction rows with
  | nil => intro acc h1 h2; exact ⟨h1, h2⟩
  | cons r rest ih =>
      intro acc h1 h2
      unfold setAggGo
      cases hsv : setValue e fl gl msg agg r with
      | error m => simpa using ih acc h1 h2
      | ok v0 =>
          simp only []
          split_ifs with hN hB hM
          · exact ih acc h1 h2
          · exact ih acc h1 h2
          · exact ih acc h1 h2
          · refine ih (acc ++ [jsToString (normalizeNA v0 isNA)]) ?_ ?_
            · simp [List.nodup_append, h1, hM]
            · intro s hs
              rcases List.mem_append.mp hs with h | h
              · exact h2 s h
              · simp only [List.mem_singleton] at h
                subst h
                exact hB

/-- C5: the `set` aggregation result is an array of strings (so it contains
no `null` and no `undefined`), none of which is blank after trimming, with no
duplicate string forms, accumulated in insertion order from the stringified
record values; a per-record value evaluation failure produces a warning and
skips only that record. -/
theorem C5_set_aggregation (e : ExtEnv) (fl gl : Store) (msg : JValue)
    (isNA : JValue → Bool) (tag : String) (agg : AggSpec) (mapped : List JValue) :
    (agg.mode = "set" →
      aggStage e fl gl msg isNA tag agg mapped =
        (.arr ((setAggGo e fl gl msg isNA tag agg mapped []).1.map JValue.str),
         (setAggGo e fl gl msg isNA tag agg mapped []).2)
      ∧ (setAggGo e fl gl msg isNA tag agg mapped []).1.Nodup
      ∧ (∀ x ∈ (setAggGo e fl gl msg isNA tag agg mapped []).1.map JValue.str,
          ∃ s, x = JValue.str s ∧ strTrim s ≠ ""))
  ∧ (∀ r rest acc m, setValue e fl gl msg agg r = .error m →
      setAggGo e fl gl msg isNA tag agg (r :: rest) acc =
        ((setAggGo e fl gl msg isNA tag agg rest acc).1,
         (tag ++ " set valueExpr error: " ++ m)
           :: (setAggGo e fl gl msg isNA tag agg rest acc).2)) := by
  constructor
  · intro hmode
    have hinv := setAggGo_invariant e fl gl msg isNA tag agg mapped []
      List.nodup_nil (by intro s hs; cases hs)
    refine ⟨?_, hinv.1, ?_⟩
    · simp [aggStage, orD, hmode]
    · intro x hx
      rcases List.mem_map.mp hx with ⟨s, hs, rfl⟩
      exact ⟨s, rfl, hinv.2 s hs⟩
  · intro r rest acc m hsv
    simp [setAggGo, hsv]

/-- Witness for C5 at a concrete record list containing a duplicate, a blank
and an NA value: only the distinct non-blank entry survives, and a failing
record is skipped with a warning. -/
theorem C5_set_aggregation_witness :
    aggStage ⟨fun _ _ => .error "boom", fun _ => "", fun _ => none⟩ [] []
      (.obj []) (mkNASet ["", "NA", "N/A"]) "[rule:0]"
      { mode := "set", keyExprType := "", keyExpr := "", valueExprType := "",
        valueExpr := "" }
      [.obj [("name", .str "alpha")], .obj [("name", .str "alpha")],
       .obj [("name", .str " ")], .obj [("name", .str "NA")]]
      = (.arr [.str "alpha"], [])
  ∧ setAggGo ⟨fun _ _ => .error "boom", fun _ => "", fun _ => none⟩ [] []
      (.obj []) (mkNASet ["", "NA", "N/A"]) "[rule:0]"
      { mode := "set", keyExprType := "", keyExpr := "", valueExprType := "",
        valueExpr := "x" }
      [.null] []
      = ([], ["[rule:0] set valueExpr error: boom"]) := by
  constructor
  · have h := (C5_set_aggregation ⟨fun _ _ => .error "boom", fun _ => "", fun _ => none⟩
      [] [] (.obj []) (mkNASet ["", "NA", "N/A"]) "[rule:0]"
      { mode := "set", keyExprType := "", keyExpr := "", valueExprType := "",
        valueExpr := "" }
      [.obj [("name", .str "alpha")], .obj [("name", .str "alpha")],
       .obj [("name", .str " ")], .obj [("name", .str "NA")]]).1 rfl
    exact h.1.trans (by rfl)
  · have h := (C5_set_aggregation ⟨fun _ _ => .error "boom", fun _ => "", fun _ => none⟩
      [] [] (.obj []) (mkNASet ["", "NA", "N/A"]) "[rule:0]"
      { mode := "set", keyExprType := "", keyExpr := "", valueExprType := "",
        valueExpr := "x" }
      [.null]).2 JValue.null [] [] "boom" rfl
    exact h.trans (by rfl)

/-- Upserting grows an object by at most one entry. -/
theorem objSet_length_le (fs : List (String × JValue)) (k : String) (v : JValue) :
    (objSet fs k v).length ≤ fs.length + 1 := by
  induction fs with
  | nil => simp [objSet]
  | cons p rest ih =>
      unfold objSet
      split_ifs <;> simp_all

/-- Upserting under an existing key keeps the entry count. -/
theorem objSet_length_mem (fs : List (String × JValue)) (k : String)
    (v w : JValue) (h : objGet fs k = some w) : (objSet fs k v).length = fs.length := by
  induction fs with
  | nil => simp [objGet] at h
  | cons p rest ih =>
      unfold objSet
      unfold objGet at h
      split_ifs with hk
      · simp
      · simp only [hk] at h
        simp [ih h]

/-- Reading back the key just written yields the new value: later writes win. -/
theorem objGet_objSet_self (fs : List (String × JValue)) (k : String) (v : JValue) :
    objGet (objSet fs k v) k = some v := by
  induction fs with
  | nil => simp [objSet, objGet]
  | cons p rest ih =>
      unfold objSet
      split_ifs with hk
      · simp [objGet]
      · simpa [objGet, hk] using ih

/-- The `objectByKey` loop never produces more keys than the records it
consumed plus the accumulator it started from. -/
theorem objByKeyGo_length (e : ExtEnv) (fl gl : Store) (msg : JValue)
    (tag : String) (agg : AggSpec) (rows : List JValue) :
    ∀ acc, (objByKeyGo e fl gl msg tag agg rows acc).1.length ≤
      acc.length + rows.length := by
  induction rows with
  | nil => intro acc; simp [objByKeyGo]
  | cons r rest ih =>
      intro acc
      unfold objByKeyGo
      cases hk : evalTyped e fl gl msg (orD agg.keyExprType "jsonata") agg.keyExpr r with
      | ok k =>
          have h1 := ih (objSet acc (if isNullish k then "" else jsToString k) r)
          have h2 := objSet_length_le acc (if isNullish k then "" else jsToString k) r
          simp only [hk, List.length_cons]
          omega
      | error m =>
          have h1 := ih acc
          simp only [hk, List.length_cons]
          omega

/-- C6: the `objectByKey` aggregator evaluates the key expression per record
with the record as row context and upserts the record under the stringified
key (`String(k ?? "")`); a later record with the same key overwrites the
earlier one without error, so the key count never exceeds the record count;
a key evaluation failure yields a warning and skips that record. -/
theorem C6_objectByKey_aggregation (e : ExtEnv) (fl gl : Store) (msg : JValue)
    (isNA : JValue → Bool) (tag : String) (agg : AggSpec) (mapped : List JValue) :
    (agg.mode = "objectByKey" →
      aggStage e fl gl msg isNA tag agg mapped =
        (.obj (objByKeyGo e fl gl msg tag agg mapped []).1,
         (objByKeyGo e fl gl msg tag agg mapped []).2)
      ∧ (objByKeyGo e fl gl msg tag agg mapped []).1.length ≤ mapped.length)
  ∧ (∀ r rest acc k,
      evalTyped e fl gl msg (orD agg.keyExprType "jsonata") agg.keyExpr r = .ok k →
      objByKeyGo e fl gl msg tag agg (r :: rest) acc =
        objByKeyGo e fl gl msg tag agg rest
          (objSet acc (if isNullish k then "" else jsToString k) r))
  ∧ (∀ r rest acc m,
      evalTyped e fl gl msg (orD agg.keyExprType "jsonata") agg.keyExpr r = .error m →
      objByKeyGo e fl gl msg tag agg (r :: rest) acc =
        ((objByKeyGo e fl gl msg tag agg rest acc).1,
         (tag ++ " objectByKey keyExpr error: " ++ m)
           :: (objByKeyGo e fl gl msg tag agg rest acc).2))
  ∧ (∀ acc k v, objGet (objSet acc k v) k = some v)
  ∧ (∀ acc k v w, objGet acc k = some w → (objSet acc k v).length = acc.length) := by
  refine ⟨?_, ?_, ?_, fun acc k v => objGet_objSet_self acc k v,
    fun acc k v w h => objSet_length_mem acc k v w h⟩
  · intro hmode
    constructor
    · simp [aggStage, orD, hmode]
    · simpa using objByKeyGo_length e fl gl msg tag agg mapped []
  · intro r rest acc k hk
    simp [objByKeyGo, hk]
  · intro r rest acc m hm
    simp [objByKeyGo, hm]

/-- Witness for C6: two records with the same key through a `path` key
expression collapse to one entry holding the later record. -/
theorem C6_objectByKey_aggregation_witness :
    aggStage ⟨fun _ _ => .error "boom", fun _ => "", fun _ => none⟩ [] []
      (.obj []) (fun _ => false) "[rule:0]"
      { mode := "objectByKey", keyExprType := "path", keyExpr := "id",
        valueExprType := "", valueExpr := "" }
      [.obj [("id", .str "a"), ("n", .num (.int 1))],
       .obj [("id", .str "a"), ("n", .num (.int 2))]]
      = (.obj [("a", .obj [("id", .str "a"), ("n", .num (.int 2))])], [])
  ∧ objGet (objSet [("a", JValue.num (.int 1))] "a" (JValue.num (.int 2))) "a"
      = some (JValue.num (.int 2)) := by
  constructor
  · have h := (C6_objectByKey_aggregation
      ⟨fun _ _ => .error "boom", fun _ => "", fun _ => none⟩ [] []
      (.obj []) (fun _ => false) "[rule:0]"
      { mode := "objectByKey", keyExprType := "path", keyExpr := "id",
        valueExprType := "", valueExpr := "" }
      [.obj [("id", .str "a"), ("n", .num (.int 1))],
       .obj [("id", .str "a"), ("n", .num (.int 2))]]).1 rfl
    exact h.1.trans (by rfl)
  · exact (C6_objectByKey_aggregation
      ⟨fun _ _ => .error "boom", fun _ => "", fun _ => none⟩ [] []
      (.obj []) (fun _ => false) "x"
      { mode := "", keyExprType := "", keyExpr := "", valueExprType := "",
        valueExpr := "" } []).2.2.2.1
      [("a", JValue.num (.int 1))] "a" (JValue.num (.int 2))

/-- C7: emptiness of an aggregate result is mode-specific — `count`: the
result strictly equals zero; `first`: the result is nullish; arrays (the
`array` and `set` shapes): zero length; plain objects (the `objectByKey`
shape): zero keys; any other shape: nullish — and on an empty result
`onEmpty=error` records an error, `onEmpty=warn` or an unset `onEmpty`
records a warning, and `onEmpty=ok` records neither and counts the rule as a
success, leaving the error counter and the warning list untouched. -/
theorem C7_emptiness_policy :
    (∀ i : Int, isEmptyResult "count" (.num (.int i)) = decide (i = 0))
  ∧ (∀ r, isEmptyResult "first" r = isNullish r)
  ∧ (∀ m xs, m ≠ "count" → m ≠ "first" → isEmptyResult m (.arr xs) = xs.isEmpty)
  ∧ (∀ m fs, m ≠ "count" → m ≠ "first" → isEmptyResult m (.obj fs) = fs.isEmpty)
  ∧ (∀ m v, m ≠ "count" → m ≠ "first" → (∀ xs, v ≠ .arr xs) →
      (∀ fs, v ≠ .obj fs) → isEmptyResult m v = isNullish v)
  ∧ (∀ tag s, emptyHandling tag "error" true s =
      { s with errors := s.errors ++ [tag ++ " produced empty result"],
               ruleErr := s.ruleErr + 1 })
  ∧ (∀ tag oe s, (oe = "warn" ∨ oe = "") → emptyHandling tag oe true s =
      { s with warnings := s.warnings ++ [tag ++ " produced empty result"],
               ruleWarn := s.ruleWarn + 1 })
  ∧ (∀ tag s, emptyHandling tag "ok" true s = { s with ruleOK := s.ruleOK + 1 })
  ∧ (∀ tag oe s, emptyHandling tag oe false s = { s with ruleOK := s.ruleOK + 1 }) := by
  refine ⟨fun i => rfl, fun r => ?_, ?_, ?_, ?_, fun tag s => rfl, ?_, fun tag s => rfl,
    fun tag oe s => rfl⟩
  · cases r <;> rfl
  · intro m xs h1 h2; simp [isEmptyResult, h1, h2]
  · intro m fs h1 h2; simp [isEmptyResult, h1, h2]
  · intro m v h1 h2 h3 h4
    cases v <;> simp_all [isEmptyResult]
  · rintro tag oe s (h | h) <;> subst h <;> rfl

/-- Witness for C7: concrete emptiness decisions and concrete onEmpty
outcomes at an empty state. -/
theorem C7_emptiness_policy_witness :
    isEmptyResult "array" (.arr []) = true
  ∧ isEmptyResult "objectByKey" (.obj [("k", .null)]) = false
  ∧ isEmptyResult "weird" (.str "x") = false
  ∧ emptyHandling "[rule:0]" "warn" true
      { msg := .obj [], flow := [], global := [], warnings := [], errors := [],
        ruleOK := 0, ruleWarn := 0, ruleErr := 0, outputs := [] } =
      { msg := .obj [], flow := [], global := [],
        warnings := ["[rule:0] produced empty result"], errors := [],
        ruleOK := 0, ruleWarn := 1, ruleErr := 0, outputs := [] } := by
  refine ⟨?_, ?_, ?_, ?_⟩
  · exact (C7_emptiness_policy.2.2.1 "array" [] (by decide) (by decide)).trans (by rfl)
  · exact (C7_emptiness_policy.2.2.2.1 "objectByKey" [("k", .null)]
      (by decide) (by decide)).trans (by rfl)
  · exact (C7_emptiness_policy.2.2.2.2.1 "weird" (.str "x") (by decide) (by decide)
      (fun xs h => by cases h) (fun fs h => by cases h)).trans (by rfl)
  · exact (C7_emptiness_policy.2.2.2.2.2.2.1 "[rule:0]" "warn"
      { msg := .obj [], flow := [], global := [], warnings := [], errors := [],
        ruleOK := 0, ruleWarn := 0, ruleErr := 0, outputs := [] }
      (Or.inl rfl)).trans (by rfl)

/-- The FILTER loop only removes rows: the surviving rows form a sublist of
the selected rows, in source order and with the elements unchanged. -/
theorem filterRows_sublist (e : ExtEnv) (fl gl : Store) (msg : JValue)
    (tag fty f : String) (rows : List JValue) :
    ((filterRows e fl gl msg tag fty f rows).1).Sublist rows := by
  induction rows with
  | nil => simp [filterRows]
  | cons r rest ih =>
      unfold filterRows
      cases hk : evalTyped e fl gl msg fty f r with
      | ok keep =>
          by_cases hb : toBool keep = true
          · simpa [hk, hb] using List.Sublist.cons₂ r ih
          · simp only [Bool.not_eq_true] at hb
            simpa [hk, hb] using List.Sublist.cons r ih
      | error m => simpa [hk] using List.Sublist.cons r ih

/-- C9: with an empty map list the filtered rows pass through the MAP stage
unchanged and the `array` aggregate (explicit or defaulted) returns exactly
that row sequence; the survivors of the FILTER stage are a sublist of the
selected rows — the original elements, untouched by NA normalization, in
source order — and an absent filter passes everything through. -/
theorem C9_array_passthrough (e : ExtEnv) (fl gl : Store) (msg : JValue)
    (isNA : JValue → Bool) (tag : String) (rule : Rule) (scopeRows : List JValue) :
    ((rowsStage e fl gl msg tag rule scopeRows).1).Sublist scopeRows
  ∧ (rule.filter = "" → rowsStage e fl gl msg tag rule scopeRows = (scopeRows, []))
  ∧ (rule.map = [] → ∀ rows, mapRows e fl gl msg isNA tag rule.map rows = (rows, []))
  ∧ (rule.map = [] → (rule.aggregate.mode = "array" ∨ rule.aggregate.mode = "") →
      aggStage e fl gl msg isNA tag rule.aggregate
        (mapRows e fl gl msg isNA tag rule.map
          (rowsStage e fl gl msg tag rule scopeRows).1).1
        = (.arr (rowsStage e fl gl msg tag rule scopeRows).1, [])) := by
  have hmap : rule.map = [] → ∀ rows, mapRows e fl gl msg isNA tag rule.map rows = (rows, []) := by
    intro h rows
    rw [h]
    cases rows <;> rfl
  refine ⟨?_, ?_, hmap, ?_⟩
  · unfold rowsStage
    split_ifs with h
    · exact List.Sublist.refl scopeRows
    · exact filterRows_sublist e fl gl msg tag (orD rule.filterType "jsonata")
        rule.filter scopeRows
  · intro h; simp [rowsStage, h]
  · intro h hmode
    rw [hmap h]
    rcases hmode with hm | hm <;> simp [aggStage, orD, hm]

/-- A concrete external environment whose expression evaluator always fails. -/
def envBoom : ExtEnv := ⟨fun _ _ => .error "boom", fun _ => "", fun _ => none⟩

/-- A blank aggregate specification (defaulting to `array`). -/
def aggBlank : AggSpec :=
  { mode := "", keyExprType := "", keyExpr := "", valueExprType := "", valueExpr := "" }

/-- A rule with no filter, no map fields and all-default aggregate/output. -/
def rulePass : Rule :=
  { name := "", selectType := "", select := "", filterType := "", filter := "",
    map := [], aggregate := aggBlank, output := { type := "", path := "" },
    onEmpty := "", onError := "" }

/-- Witness for C9: a filterless, mapless rule with the default aggregate
passes the selected rows through unchanged. -/
theorem C9_array_passthrough_witness :
    rowsStage envBoom [] [] (.obj []) "[rule:0]" rulePass
      [.num (.int 1), .str "x"] = ([.num (.int 1), .str "x"], [])
  ∧ aggStage envBoom [] [] (.obj []) (fun _ => false) "[rule:0]" rulePass.aggregate
      (mapRows envBoom [] [] (.obj []) (fun _ => false) "[rule:0]" rulePass.map
        (rowsStage envBoom [] [] (.obj []) "[rule:0]" rulePass
          [.num (.int 1), .str "x"]).1).1
      = (.arr [.num (.int 1), .str "x"], []) := by
  constructor
  · exact (C9_array_passthrough envBoom [] [] (.obj []) (fun _ => false) "[rule:0]"
      rulePass [.num (.int 1), .str "x"]).2.1 rfl
  · have h := (C9_array_passthrough envBoom [] [] (.obj []) (fun _ => false) "[rule:0]"
      rulePass [.num (.int 1), .str "x"]).2.2.2 rfl (Or.inr rfl)
    exact h.trans (by rfl)

/-- C2: the SELECT stage always yields a row array — a nullish raw result
coerces to the empty array, any other non-array raw result is the per-rule
error `select did not resolve to an array` — and on a select-stage error the
rule records the tagged error and increments the error counter; with
`onError=stop` no later rule runs (the run state is final, so no further
output writes and no further count contributions happen), while with any
other `onError` execution proceeds to the next rule from the error state. -/
theorem C2_select_error_policy (e : ExtEnv) (isNA : JValue → Bool) (root : JValue) :
    (∀ rule v, selectRaw e root rule = .ok v → isNullish v = true →
      selectStage e root rule = .ok [])
  ∧ (∀ rule xs, selectRaw e root rule = .ok (.arr xs) →
      selectStage e root rule = .ok xs)
  ∧ (∀ rule v, selectRaw e root rule = .ok v → isNullish v = false →
      (∀ xs, v ≠ .arr xs) →
      selectStage e root rule = .error "select did not resolve to an array")
  ∧ (∀ rule em i rest s, selectStage e root rule = .error em →
      rule.onError = "stop" →
      runRules e isNA root i (rule :: rest) s =
        { s with errors := s.errors ++ [ruleTag i rule ++ " " ++ em],
                 ruleErr := s.ruleErr + 1 })
  ∧ (∀ rule em i rest s, selectStage e root rule = .error em →
      rule.onError ≠ "stop" →
      runRules e isNA root i (rule :: rest) s =
        runRules e isNA root (i + 1) rest
          { s with errors := s.errors ++ [ruleTag i rule ++ " " ++ em],
                   ruleErr := s.ruleErr + 1 }) := by
  refine ⟨?_, ?_, ?_, ?_, ?_⟩
  · intro rule v h hnull
    unfold selectStage
    rw [h]
    cases v <;> simp_all [isNullish]
  · intro rule xs h
    unfold selectStage
    rw [h]
  · intro rule v h hnull harr
    unfold selectStage
    rw [h]
    cases v <;> simp_all [isNullish]
  · intro rule em i rest s h hstop
    have hb : (rule.onError == "stop") = true := by simp [hstop]
    simp [runRules, runRule, h, hb]
  · intro rule em i rest s h hstop
    have hb : (rule.onError == "stop") = false := by
      simpa using hstop
    simp [runRules, runRule, h, hb]

/-- A rule whose select expression always fails and which stops the rule-set
on error. -/
def ruleStop : Rule :=
  { name := "", selectType := "jsonata", select := "x", filterType := "",
    filter := "", map := [], aggregate := aggBlank,
    output := { type := "", path := "" }, onEmpty := "", onError := "stop" }

/-- An initial run state over an empty message. -/
def stateInit : RunState :=
  { msg := .obj [], flow := [], global := [], warnings := [], errors := [],
    ruleOK := 0, ruleWarn := 0, ruleErr := 0, outputs := [] }

/-- Witness for C2: a failing select under `onError=stop` leaves the state of
all later rules untouched (here one later rule), recording exactly the tagged
error; a nullish select coerces to the empty row array. -/
theorem C2_select_error_policy_witness :
    runRules envBoom (fun _ => false) (.obj []) 0 [ruleStop, rulePass] stateInit =
      { stateInit with
          errors := ["[rule:0] select evaluation failed: boom"], ruleErr := 1 }
  ∧ selectStage envBoom JValue.null rulePass = .ok [] := by
  constructor
  · have h := (C2_select_error_policy envBoom (fun _ => false) (.obj [])).2.2.2.1
      ruleStop "select evaluation failed: boom" 0 [rulePass] stateInit rfl rfl
    exact h.trans (by rfl)
  · exact (C2_select_error_policy envBoom (fun _ => false) JValue.null).1
      rulePass JValue.null rfl rfl

/-- Output writing never touches the metadata lists or the outcome counters. -/
theorem writeOutput_warnings (s : RunState) (ty p : String) (v : JValue) :
    (writeOutput s ty p v).warnings = s.warnings := by
  unfold writeOutput; split_ifs <;> rfl

/-- Output writing never touches the error list. -/
theorem writeOutput_errors (s : RunState) (ty p : String) (v : JValue) :
    (writeOutput s ty p v).errors = s.errors := by
  unfold writeOutput; split_ifs <;> rfl

/-- Output writing never touches the error counter. -/
theorem writeOutput_ruleErr (s : RunState) (ty p : String) (v : JValue) :
    (writeOutput s ty p v).ruleErr = s.ruleErr := by
  unfold writeOutput; split_ifs <;> rfl

/-- Output writing never touches the warning counter. -/
theorem writeOutput_ruleWarn (s : RunState) (ty p : String) (v : JValue) :
    (writeOutput s ty p v).ruleWarn = s.ruleWarn := by
  unfold writeOutput; split_ifs <;> rfl

/-- The warning list after empty handling: appended exactly when the result
was empty and the policy is warn-or-unset. -/
theorem emptyHandling_warnings (tag oe : String) (b : Bool) (s : RunState) :
    (emptyHandling tag oe b s).warnings = s.warnings ++
      (if b = true ∧ oe ≠ "error" ∧ (oe = "warn" ∨ oe = "")
       then [tag ++ " produced empty result"] else []) := by
  unfold emptyHandling; split_ifs <;> simp_all

/-- The error list after empty handling: appended exactly when the result was
empty under `onEmpty=error`. -/
theorem emptyHandling_errors (tag oe : String) (b : Bool) (s : RunState) :
    (emptyHandling tag oe b s).errors = s.errors ++
      (if b = true ∧ oe = "error" then [tag ++ " produced empty result"] else []) := by
  unfold emptyHandling; split_ifs <;> simp_all

/-- One rule only appends to the metadata lists. -/
theorem runRule_appends (e : ExtEnv) (isNA : JValue → Bool) (root : JValue)
    (i : Nat) (rule : Rule) (s : RunState) :
    ∃ w l, (runRule e isNA root i rule s).1.warnings = s.warnings ++ w ∧
           (runRule e isNA root i rule s).1.errors = s.errors ++ l := by
  unfold runRule
  cases h : selectStage e root rule with
  | error em => exact ⟨[], [ruleTag i rule ++ " " ++ em], by simp, rfl⟩
  | ok rows =>
      simp only [emptyHandling_warnings, emptyHandling_errors,
        writeOutput_warnings, writeOutput_errors, List.append_assoc]
      exact ⟨_, _, rfl, rfl⟩

/-- The rule loop only appends to the metadata lists. -/
theorem runRules_appends (e : ExtEnv) (isNA : JValue → Bool) (root : JValue)
    (rules : List Rule) :
    ∀ i s, ∃ w l, (runRules e isNA root i rules s).warnings = s.warnings ++ w ∧
                  (runRules e isNA root i rules s).errors = s.errors ++ l := by
  induction rules with
  | nil => intro i s; exact ⟨[], [], by simp [runRules], by simp [runRules]⟩
  | cons r rest ih =>
      intro i s
      obtain ⟨w1, l1, hw1, hl1⟩ := runRule_appends e isNA root i r s
      cases hb : (runRule e isNA root i r s).2
      · obtain ⟨w2, l2, hw2, hl2⟩ := ih (i + 1) (runRule e isNA root i r s).1
        refine ⟨w1 ++ w2, l1 ++ l2, ?_, ?_⟩
        · simp [runRules, hb, hw2, hw1]
        · simp [runRules, hb, hl2, hl1]
      · exact ⟨w1, l1, by simp [runRules, hb, hw1], by simp [runRules, hb, hl1]⟩

/-- C10: in the run summary, `counts.warn` is the per-rule warn counter plus
the full length of the accumulated warnings list and `counts.err` the per-rule
error counter plus the full length of the errors list; the run only appends to
the lists the message arrived with, so pre-existing metadata entries are
counted; every rule-level error (select failure or empty result under
`onEmpty=error`) contributes two to `counts.err` and every empty-result
warning two to `counts.warn`; and `ok` is false whenever the errors list is
non-empty, including entries that predate the run. -/
theorem C10_summary_counts :
    (∀ n s, (mkSummary n s).warn = s.ruleWarn + s.warnings.length
      ∧ (mkSummary n s).err = s.ruleErr + s.errors.length
      ∧ ((mkSummary n s).ok = true ↔ s.errors = []))
  ∧ (∀ (e : ExtEnv) (isNA : JValue → Bool) (root : JValue) (rules : List Rule)
      (i : Nat) (s : RunState), ∃ w l,
      (runRules e isNA root i rules s).warnings = s.warnings ++ w ∧
      (runRules e isNA root i rules s).errors = s.errors ++ l)
  ∧ (∀ (e : ExtEnv) (isNA : JValue → Bool) (root : JValue) (i : Nat)
      (rule : Rule) (s : RunState) em, selectStage e root rule = .error em →
      (runRule e isNA root i rule s).1.ruleErr
        + ((runRule e isNA root i rule s).1.errors).length
        = s.ruleErr + s.errors.length + 2)
  ∧ (∀ tag s, (emptyHandling tag "error" true s).ruleErr
        + ((emptyHandling tag "error" true s).errors).length
        = s.ruleErr + s.errors.length + 2)
  ∧ (∀ tag oe s, (oe = "warn" ∨ oe = "") →
      (emptyHandling tag oe true s).ruleWarn
        + ((emptyHandling tag oe true s).warnings).length
        = s.ruleWarn + s.warnings.length + 2)
  ∧ (∀ (e : ExtEnv) (isNA : JValue → Bool) (root : JValue) (rules : List Rule)
      (n : Nat) (msg0 : JValue) (fl0 gl0 : Store) (initW initE : List String),
      initE ≠ [] →
      (mkSummary n (runRules e isNA root 0 rules
        { msg := msg0, flow := fl0, global := gl0, warnings := initW,
          errors := initE, ruleOK := 0, ruleWarn := 0, ruleErr := 0,
          outputs := [] })).ok = false) := by
  refine ⟨?_, ?_, ?_, ?_, ?_, ?_⟩
  · intro n s
    refine ⟨rfl, rfl, ?_⟩
    simp [mkSummary, List.isEmpty_iff]
  · intro e isNA root rules i s
    exact runRules_appends e isNA root rules i s
  · intro e isNA root i rule s em h
    unfold runRule
    rw [h]
    simp
    omega
  · intro tag s
    unfold emptyHandling
    simp
    omega
  · rintro tag oe s (h | h) <;> subst h <;> simp [emptyHandling] <;> omega
  · intro e isNA root rules n msg0 fl0 gl0 initW initE hE
    obtain ⟨w, l, hw, hl⟩ := runRules_appends e isNA root rules 0
      { msg := msg0, flow := fl0, global := gl0, warnings := initW,
        errors := initE, ruleOK := 0, ruleWarn := 0, ruleErr := 0, outputs := [] }
    simp only [mkSummary, hl]
    simp [List.isEmpty_iff, List.append_eq_nil, hE]

/-- Witness for C10: a failing select contributes exactly two to the error
count, and a run whose incoming message already carries an error reports a
failed summary even with no rules at all. -/
theorem C10_summary_counts_witness :
    (runRule envBoom (fun _ => false) (.obj []) 0 ruleStop stateInit).1.ruleErr
      + ((runRule envBoom (fun _ => false) (.obj []) 0 ruleStop stateInit).1.errors).length
      = 2
  ∧ (mkSummary 0 (runRules envBoom (fun _ => false) (.obj []) 0 []
      { msg := .obj [], flow := [], global := [], warnings := [],
        errors := ["earlier failure"], ruleOK := 0, ruleWarn := 0, ruleErr := 0,
        outputs := [] })).ok = false := by
  constructor
  · exact C10_summary_counts.2.2.1 envBoom (fun _ => false) (.obj []) 0 ruleStop
      stateInit "select evaluation failed: boom" rfl
  · exact C10_summary_counts.2.2.2.2.2 envBoom (fun _ => false) (.obj []) [] 0
      (.obj []) [] [] [] ["earlier failure"] (by simp)
